import Mathlib

/-!
Shallow embedding of the neo4j_sync graph merge/ingestion service.

The service stores a property graph in Neo4j.  `src/db.py` issues Cypher
MERGE statements; we embed their documented semantics as pure state
transformers over an explicit `GraphState`:

* `MERGE (i:Instance {name}) ON CREATE SET i.created = timestamp()`
  → `mergeInstance` (append-if-absent keyed by name, `created` set once);
* `MERGE (m:Module {name}) ON CREATE SET m.version = $v, m.created = ...`
  → `mergeModule` (version set only on creation);
* `MERGE (i)-[:DEPLOYS]->(m)` / `MERGE (m)-[:DEPLOYED_BY]->(i)`
  → `mergePair` on the relationship lists;
* the dependency MERGE with
  `ON CREATE SET dep.instances = [$instance_name]` and
  `ON MATCH SET dep.instances = CASE WHEN $instance_name IN dep.instances
   THEN dep.instances ELSE dep.instances + $instance_name END`
  → `upsertDep` using `updInstances`.

Neo4j's `timestamp()` is modelled by an explicit `now : Nat` argument.
Property values that may be the Cypher null are modelled as `Option String`.
Python dictionaries with possibly-absent keys (`module.get("version",
"unknown")`) are modelled as `Option (Option String)` fields: the outer
`Option` is key presence, the inner one is null vs. string.
-/

/-- Stored `Instance` node: identity `name`, `created` set once. -/
structure InstanceRec where
  name : String
  created : Nat
deriving Repr, DecidableEq

/-- Stored `Module` node: identity `name`; `version` may be null. -/
structure ModuleRec where
  name : String
  version : Option String
  created : Nat
deriving Repr, DecidableEq

/-- Stored `DEPENDS_ON` / `DEPENDS_BY` relationship with its `instances`
provenance list. -/
structure DepEdge where
  src : String
  dst : String
  created : Nat
  instances : List String
deriving Repr, DecidableEq

/-- The whole store state: node lists plus the four relationship lists. -/
structure GraphState where
  instanceNodes : List InstanceRec
  moduleNodes : List ModuleRec
  deploys : List (String × String)
  deployedBy : List (String × String)
  dependsOn : List DepEdge
  dependsBy : List DepEdge
deriving Repr, DecidableEq

/-- The empty store. -/
def emptyState : GraphState :=
  { instanceNodes := [], moduleNodes := [], deploys := [], deployedBy := [],
    dependsOn := [], dependsBy := [] }

/-- Module dictionary handed to `Neo4jDatabase.ingest_graph`
(built by the router as `{"name": ..., "version": ..., "id": ...}`). -/
structure ModuleDict where
  name : String
  version : Option (Option String)
  id : String
deriving Repr, DecidableEq

/-- Edge dictionary handed to `Neo4jDatabase.ingest_graph`. -/
structure EdgeDict where
  from_name : String
  to_name : String
  from_version : Option (Option String)
  to_version : Option (Option String)
  type : String
deriving Repr, DecidableEq

/-- Python `module.get("version", "unknown")`: the default fires only when
the key is absent, not when its value is `None`. -/
def moduleVersionParam (m : ModuleDict) : Option String :=
  m.version.getD (some "unknown")

/-- Python `edge.get("from_version", "unknown")`. -/
def fromVersionParam (e : EdgeDict) : Option String :=
  e.from_version.getD (some "unknown")

/-- Python `edge.get("to_version", "unknown")`. -/
def toVersionParam (e : EdgeDict) : Option String :=
  e.to_version.getD (some "unknown")

/-- `MERGE (i:Instance {name: $n}) ON CREATE SET i.created = timestamp()`. -/
def mergeInstance (n : String) (now : Nat) (st : GraphState) : GraphState :=
  if st.instanceNodes.any (fun i => i.name == n) then st
  else { st with instanceNodes := st.instanceNodes ++ [⟨n, now⟩] }

/-- `MERGE (m:Module {name: $n}) ON CREATE SET m.version = $v, m.created = ...`:
the version is written only when the node is created. -/
def mergeModule (n : String) (v : Option String) (now : Nat) (st : GraphState) : GraphState :=
  if st.moduleNodes.any (fun m => m.name == n) then st
  else { st with moduleNodes := st.moduleNodes ++ [⟨n, v, now⟩] }

/-- Relationship `MERGE` for `DEPLOYS`/`DEPLOYED_BY`: create only if absent. -/
def mergePair (p : String × String) (l : List (String × String)) : List (String × String) :=
  if p ∈ l then l else l ++ [p]

/-- The `CASE WHEN $instance_name IN dep.instances THEN dep.instances
ELSE dep.instances + $instance_name END` expression of the dependency query. -/
def updInstances (inst : String) (l : List String) : List String :=
  if inst ∈ l then l else l ++ [inst]

/-- Dependency-relationship `MERGE`: on match, rewrite `instances` through
`updInstances`; on create, seed `instances = [$instance_name]`.  The store
keeps at most one relationship per (src, dst) pair, so the first match is
the only match. -/
def upsertDep (f t inst : String) (now : Nat) : List DepEdge → List DepEdge
  | [] => [⟨f, t, now, [inst]⟩]
  | e :: rest =>
    if e.src = f ∧ e.dst = t then
      { e with instances := updInstances inst e.instances } :: rest
    else
      e :: upsertDep f t inst now rest

/-- One iteration of the module loop of `ingest_graph` (the per-module
Cypher statement: merge Instance, merge Module, merge the DEPLOYS /
DEPLOYED_BY pair). -/
def applyModuleQuery (instance_name : String) (m : ModuleDict) (now : Nat)
    (st : GraphState) : GraphState :=
  let st1 := mergeInstance instance_name now st
  let st2 := mergeModule m.name (moduleVersionParam m) now st1
  let st3 := { st2 with deploys := mergePair (instance_name, m.name) st2.deploys }
  { st3 with deployedBy := mergePair (m.name, instance_name) st3.deployedBy }

/-- One iteration of the edge loop of `ingest_graph` (the per-edge Cypher
statement: merge both endpoint modules, then the DEPENDS_ON and DEPENDS_BY
relationships with provenance accumulation). -/
def applyEdgeQuery (instance_name : String) (e : EdgeDict) (now : Nat)
    (st : GraphState) : GraphState :=
  let st1 := mergeModule e.from_name (fromVersionParam e) now st
  let st2 := mergeModule e.to_name (toVersionParam e) now st1
  let st3 := { st2 with dependsOn := upsertDep e.from_name e.to_name instance_name now st2.dependsOn }
  { st3 with dependsBy := upsertDep e.to_name e.from_name instance_name now st3.dependsBy }

/-- Counters returned by `ingest_graph`.  Each per-module statement returns
one row with `count(m) = 1` and `count(i) = 1`, and each per-edge statement
one row with `count(dep_on) = 1`, so the sums are the list lengths. -/
structure IngestCounts where
  instances_processed : Nat
  modules_created : Nat
  dependencies_created : Nat
  instance_module_relationships : Nat
deriving Repr, DecidableEq

/-- `Neo4jDatabase.ingest_graph` success path: merge the Instance node, then
the module statements in order, then the edge statements in order. -/
def ingest_graph (instance_name : String) (modules : List ModuleDict)
    (edges : List EdgeDict) (st : GraphState) (now : Nat) :
    GraphState × IngestCounts :=
  let st1 := mergeInstance instance_name now st
  let st2 := modules.foldl (fun s m => applyModuleQuery instance_name m now s) st1
  let st3 := edges.foldl (fun s e => applyEdgeQuery instance_name e now s) st2
  (st3, ⟨1, modules.length, edges.length, modules.length⟩)

/-! ### Basic lemmas about the merge primitives -/

lemma mergeInstance_moduleNodes (n : String) (now : Nat) (st : GraphState) :
    (mergeInstance n now st).moduleNodes = st.moduleNodes := by
  unfold mergeInstance; split <;> rfl

lemma mergeInstance_dependsOn (n : String) (now : Nat) (st : GraphState) :
    (mergeInstance n now st).dependsOn = st.dependsOn := by
  unfold mergeInstance; split <;> rfl

lemma mergeInstance_dependsBy (n : String) (now : Nat) (st : GraphState) :
    (mergeInstance n now st).dependsBy = st.dependsBy := by
  unfold mergeInstance; split <;> rfl

lemma mergeModule_instanceNodes (n : String) (v : Option String) (now : Nat) (st : GraphState) :
    (mergeModule n v now st).instanceNodes = st.instanceNodes := by
  unfold mergeModule; split <;> rfl

lemma mergeModule_dependsOn (n : String) (v : Option String) (now : Nat) (st : GraphState) :
    (mergeModule n v now st).dependsOn = st.dependsOn := by
  unfold mergeModule; split <;> rfl

lemma mergeModule_dependsBy (n : String) (v : Option String) (now : Nat) (st : GraphState) :
    (mergeModule n v now st).dependsBy = st.dependsBy := by
  unfold mergeModule; split <;> rfl

lemma applyEdgeQuery_dependsOn (i : String) (e : EdgeDict) (now : Nat) (st : GraphState) :
    (applyEdgeQuery i e now st).dependsOn
      = upsertDep e.from_name e.to_name i now st.dependsOn := by
  unfold applyEdgeQuery
  simp [mergeModule_dependsOn]

lemma applyEdgeQuery_dependsBy (i : String) (e : EdgeDict) (now : Nat) (st : GraphState) :
    (applyEdgeQuery i e now st).dependsBy
      = upsertDep e.to_name e.from_name i now st.dependsBy := by
  unfold applyEdgeQuery
  simp [mergeModule_dependsBy]

lemma applyModuleQuery_dependsOn (i : String) (m : ModuleDict) (now : Nat) (st : GraphState) :
    (applyModuleQuery i m now st).dependsOn = st.dependsOn := by
  unfold applyModuleQuery
  simp [mergeModule_dependsOn, mergeInstance_dependsOn]

lemma applyModuleQuery_dependsBy (i : String) (m : ModuleDict) (now : Nat) (st : GraphState) :
    (applyModuleQuery i m now st).dependsBy = st.dependsBy := by
  unfold applyModuleQuery
  simp [mergeModule_dependsBy, mergeInstance_dependsBy]

/-- `upsertDep` when no existing relationship matches the (src, dst) pair:
the Cypher `ON CREATE` branch appends a fresh edge seeded with `[inst]`. -/
lemma upsertDep_no_match (f t inst : String) (now : Nat) :
    ∀ l : List DepEdge, (∀ e ∈ l, ¬(e.src = f ∧ e.dst = t)) →
      upsertDep f t inst now l = l ++ [⟨f, t, now, [inst]⟩]
  | [], _ => rfl
  | e :: rest, h => by
    have he : ¬(e.src = f ∧ e.dst = t) := h e (List.mem_cons_self e rest)
    simp only [upsertDep, if_neg he]
    rw [upsertDep_no_match f t inst now rest (fun e' he' => h e' (List.mem_cons_of_mem e he'))]
    rfl

/-- `upsertDep` when the first matching relationship is `e`: the Cypher
`ON MATCH` branch rewrites its `instances` list through `updInstances` and
leaves every other relationship untouched. -/
lemma upsertDep_first_match (f t inst : String) (now : Nat) :
    ∀ (l₁ : List DepEdge) (e : DepEdge) (l₂ : List DepEdge),
      (∀ e' ∈ l₁, ¬(e'.src = f ∧ e'.dst = t)) → e.src = f → e.dst = t →
      upsertDep f t inst now (l₁ ++ e :: l₂)
        = l₁ ++ { e with instances := updInstances inst e.instances } :: l₂
  | [], e, l₂, _, hf, ht => by
    simp only [List.nil_append, upsertDep]
    rw [if_pos ⟨hf, ht⟩]
  | e' :: l₁, e, l₂, h, hf, ht => by
    have he' : ¬(e'.src = f ∧ e'.dst = t) := h e' (List.mem_cons_self e' l₁)
    simp only [List.cons_append, upsertDep, if_neg he', List.append_eq]
    rw [upsertDep_first_match f t inst now l₁ e l₂
      (fun x hx => h x (List.mem_cons_of_mem e' hx)) hf ht]

/-! ### Payload models (`src/models.py`) and the router's normalizer
(`src/routers/graph.py`, `ingest_graph` endpoint).

The pydantic `ModuleNode` model always carries a `version` attribute
(declared `Optional[str] = None`), so a parsed node omitting the field has
`version = None`; `none` here is Python `None`. -/

/-- Pydantic `ModuleNode` from a graph-sync response. -/
structure ModuleNode where
  id : Int
  label : String
  state : Option String := none
  depth : Option Int := none
  category : Option String := none
  category_id : Option Int := none
  version : Option String := none
deriving Repr, DecidableEq

/-- Pydantic `ModuleEdge`: `type: Optional[str] = "dependency"`. -/
structure ModuleEdge where
  from_ : Int
  to_ : Int
  type : Option String := some "dependency"
deriving Repr, DecidableEq

/-- Pydantic `GraphSyncData`. -/
structure GraphSyncData where
  nodes : List ModuleNode
  edges : List ModuleEdge
deriving Repr, DecidableEq

/-- Pydantic `InstanceSyncResponse`; the Python field `instance` is a Lean
keyword, hence `instance_`. -/
structure InstanceSyncResponse where
  instance_ : String
  status : String
  data : Option GraphSyncData := none
  error : Option String := none
deriving Repr, DecidableEq

/-- Response model `IngestResponse` returned by the endpoint. -/
structure IngestResponse where
  status : String
  processed_instances : Nat
  nodes_created : Nat
  edges_created : Nat
  message : String
deriving Repr, DecidableEq

/-- Warnings emitted via `logger.warning` in the endpoint loop. -/
inductive Warning where
  | skipInstance (name : String) (err : Option String)
  | skipEdge (fromId toId : Int)
deriving Repr, DecidableEq

/-- The router's per-node dictionary: `{"name": node.label, "version":
getattr(node, 'version', 'unknown'), "id": str(node.id)}`.  The `getattr`
default never fires: the parsed model always has the attribute, so the
dictionary's `"version"` key is always present and holds `node.version`
(possibly `None`). -/
def normModule (n : ModuleNode) : ModuleDict :=
  { name := n.label, version := some n.version, id := toString n.id }

/-- The dict comprehension `{str(node.id): node.label for node in nodes}`:
later nodes with the same id overwrite earlier ones, so lookup finds the
last matching node. -/
def idToName (nodes : List ModuleNode) (key : String) : Option String :=
  (nodes.reverse.find? (fun n => toString n.id == key)).map (fun n => n.label)

/-- Python `edge.type or "dependency"`: `None` and the empty string are
falsy, any other string is returned unchanged. -/
def pyOrStr (o : Option String) (d : String) : String :=
  match o with
  | none => d
  | some s => if s = "" then d else s

/-- Endpoint resolution of one edge: look both endpoints up; the edge is
kept only when both lookups return a truthy (present and non-empty) name —
this is the `if from_name and to_name:` test. -/
def resolveEdge (lookup : String → Option String) (e : ModuleEdge) : Option EdgeDict :=
  match lookup (toString e.from_), lookup (toString e.to_) with
  | some f, some t =>
    if f ≠ "" ∧ t ≠ "" then
      some { from_name := f, to_name := t,
             from_version := some (some "unknown"),
             to_version := some (some "unknown"),
             type := pyOrStr e.type "dependency" }
    else none
  | _, _ => none

/-- The endpoint's edge loop: resolved edges are collected in order, and a
`skipEdge` warning is logged for each edge whose endpoints do not both
resolve to truthy names. -/
def normEdges (lookup : String → Option String) : List ModuleEdge → List EdgeDict × List Warning
  | [] => ([], [])
  | e :: rest =>
    let r := normEdges lookup rest
    match resolveEdge lookup e with
    | some d => (d :: r.1, r.2)
    | none => (r.1, Warning.skipEdge e.from_ e.to_ :: r.2)

/-- Accumulator fields of the endpoint loop other than the log. -/
structure CoreAcc where
  st : GraphState
  total_modules : Nat
  total_deps : Nat
  processed : Nat
deriving Repr, DecidableEq

/-- One iteration of the endpoint's response loop, log aside: a response
whose status is not "success" or whose data is absent is skipped;
otherwise its payload is normalized and handed to `ingest_graph`. -/
def coreStep (now : Nat) (c : CoreAcc) (r : InstanceSyncResponse) : CoreAcc :=
  match r.data with
  | none => c
  | some d =>
    if r.status ≠ "success" then c
    else
      let res := ingest_graph r.instance_ (d.nodes.map normModule)
        (normEdges (idToName d.nodes) d.edges).1 c.st now
      { st := res.1,
        total_modules := c.total_modules + res.2.modules_created,
        total_deps := c.total_deps + res.2.dependencies_created,
        processed := c.processed + 1 }

/-- Warnings emitted while processing one response: a skipped instance
logs one `skipInstance` warning; a processed one logs the edge warnings of
its normalization. -/
def responseWarnings (r : InstanceSyncResponse) : List Warning :=
  match r.data with
  | none => [Warning.skipInstance r.instance_ r.error]
  | some d =>
    if r.status ≠ "success" then [Warning.skipInstance r.instance_ r.error]
    else (normEdges (idToName d.nodes) d.edges).2

/-- Full accumulator of the endpoint loop. -/
structure RouterAcc where
  core : CoreAcc
  warnings : List Warning
deriving Repr, DecidableEq

/-- One iteration of the endpoint's response loop. -/
def processResponse (now : Nat) (acc : RouterAcc) (r : InstanceSyncResponse) : RouterAcc :=
  { core := coreStep now acc.core r,
    warnings := acc.warnings ++ responseWarnings r }

/-- The `/api/graph/ingest` endpoint body on the success path: fold the
response list and build the `IngestResponse` from the totals. -/
def ingest_endpoint (now : Nat) (responses : List InstanceSyncResponse)
    (st : GraphState) : RouterAcc × IngestResponse :=
  let acc := responses.foldl (processResponse now) ⟨⟨st, 0, 0, 0⟩, []⟩
  (acc,
   { status := "success",
     processed_instances := acc.core.processed,
     nodes_created := acc.core.total_modules,
     edges_created := acc.core.total_deps,
     message := "Successfully ingested data from " ++ toString acc.core.processed
       ++ " instances following schema conventions" })

/-! ### Frame lemmas: ingestion only appends to the node lists -/

/-- Existing Instance and Module node records (including their `version`
and `created` attributes) survive unchanged; new records are appended. -/
def NodesExtend (st st' : GraphState) : Prop :=
  (∃ tm, st'.moduleNodes = st.moduleNodes ++ tm)
  ∧ (∃ ti, st'.instanceNodes = st.instanceNodes ++ ti)

lemma nodesExtend_refl (st : GraphState) : NodesExtend st st :=
  ⟨⟨[], (List.append_nil _).symm⟩, ⟨[], (List.append_nil _).symm⟩⟩

lemma nodesExtend_trans {a b c : GraphState} (h1 : NodesExtend a b)
    (h2 : NodesExtend b c) : NodesExtend a c := by
  obtain ⟨⟨tm1, hm1⟩, ⟨ti1, hi1⟩⟩ := h1
  obtain ⟨⟨tm2, hm2⟩, ⟨ti2, hi2⟩⟩ := h2
  exact ⟨⟨tm1 ++ tm2, by rw [hm2, hm1, List.append_assoc]⟩,
         ⟨ti1 ++ ti2, by rw [hi2, hi1, List.append_assoc]⟩⟩

lemma mergeInstance_extend (n : String) (now : Nat) (st : GraphState) :
    NodesExtend st (mergeInstance n now st) := by
  unfold mergeInstance
  split
  · exact nodesExtend_refl st
  · exact ⟨⟨[], (List.append_nil _).symm⟩, ⟨[⟨n, now⟩], rfl⟩⟩

lemma mergeModule_extend (n : String) (v : Option String) (now : Nat) (st : GraphState) :
    NodesExtend st (mergeModule n v now st) := by
  unfold mergeModule
  split
  · exact nodesExtend_refl st
  · exact ⟨⟨[⟨n, v, now⟩], rfl⟩, ⟨[], (List.append_nil _).symm⟩⟩

lemma applyModuleQuery_extend (i : String) (m : ModuleDict) (now : Nat) (st : GraphState) :
    NodesExtend st (applyModuleQuery i m now st) := by
  have h : NodesExtend st (mergeModule m.name (moduleVersionParam m) now
      (mergeInstance i now st)) :=
    nodesExtend_trans (mergeInstance_extend i now st)
      (mergeModule_extend m.name (moduleVersionParam m) now (mergeInstance i now st))
  exact h

lemma applyEdgeQuery_extend (i : String) (e : EdgeDict) (now : Nat) (st : GraphState) :
    NodesExtend st (applyEdgeQuery i e now st) := by
  have h : NodesExtend st (mergeModule e.to_name (toVersionParam e) now
      (mergeModule e.from_name (fromVersionParam e) now st)) :=
    nodesExtend_trans (mergeModule_extend e.from_name (fromVersionParam e) now st)
      (mergeModule_extend e.to_name (toVersionParam e) now
        (mergeModule e.from_name (fromVersionParam e) now st))
  exact h

lemma foldl_nodesExtend {α : Type} (step : GraphState → α → GraphState)
    (h : ∀ s x, NodesExtend s (step s x)) :
    ∀ (l : List α) (st : GraphState), NodesExtend st (l.foldl step st)
  | [], st => nodesExtend_refl st
  | x :: l, st =>
    nodesExtend_trans (h st x) (foldl_nodesExtend step h l (step st x))

/-- C8: every ingest call only ever appends to the Module and Instance node
lists; existing records — in particular a Module's `version`, which is
written only under `ON CREATE SET` — are never modified, whatever versions
a later payload reports. -/
theorem claim8_existing_nodes_frozen (instance_name : String)
    (modules : List ModuleDict) (edges : List EdgeDict) (st : GraphState) (now : Nat) :
    (∃ tm, ((ingest_graph instance_name modules edges st now).1).moduleNodes
        = st.moduleNodes ++ tm)
    ∧ (∃ ti, ((ingest_graph instance_name modules edges st now).1).instanceNodes
        = st.instanceNodes ++ ti) := by
  have h1 := mergeInstance_extend instance_name now st
  have h2 := foldl_nodesExtend (fun s m => applyModuleQuery instance_name m now s)
    (fun s m => applyModuleQuery_extend instance_name m now s) modules
    (mergeInstance instance_name now st)
  have h3 := foldl_nodesExtend (fun s e => applyEdgeQuery instance_name e now s)
    (fun s e => applyEdgeQuery_extend instance_name e now s) edges
    (modules.foldl (fun s m => applyModuleQuery instance_name m now s)
      (mergeInstance instance_name now st))
  exact nodesExtend_trans h1 (nodesExtend_trans h2 h3)

/-! ### C10: version `None` propagates, the `"unknown"` fallbacks never fire -/

/-- C10: the router's node dictionary always carries the `"version"` key
with the parsed node's `version` value, so `module.get("version",
"unknown")` returns that value — and a Module node first created from a
node that omitted `version` is stored with a null version, not the string
`"unknown"`. -/
theorem claim10_version_none_not_unknown (n : ModuleNode) (instance_name : String)
    (st : GraphState) (now : Nat) :
    (normModule n).version = some n.version
    ∧ moduleVersionParam (normModule n) = n.version
    ∧ (n.version = none →
        (∀ m ∈ st.moduleNodes, m.name ≠ n.label) →
        ∃ mr ∈ ((ingest_graph instance_name [normModule n] [] st now).1).moduleNodes,
          mr.name = n.label ∧ mr.version = none) := by
  refine ⟨rfl, rfl, fun hv hn => ?_⟩
  have hcond : ¬((mergeInstance instance_name now
      (mergeInstance instance_name now st)).moduleNodes.any
      (fun m => m.name == (normModule n).name) = true) := by
    rw [mergeInstance_moduleNodes, mergeInstance_moduleNodes]
    simp only [List.any_eq_true, beq_iff_eq, not_exists]
    intro m
    intro hm
    exact hn m hm.1 hm.2
  have hmods : (mergeModule (normModule n).name (moduleVersionParam (normModule n)) now
      (mergeInstance instance_name now (mergeInstance instance_name now st))).moduleNodes
      = st.moduleNodes ++ [⟨n.label, n.version, now⟩] := by
    unfold mergeModule
    rw [if_neg hcond, mergeInstance_moduleNodes, mergeInstance_moduleNodes]
    rfl
  have hmods2 : ((ingest_graph instance_name [normModule n] [] st now).1).moduleNodes
      = st.moduleNodes ++ [⟨n.label, n.version, now⟩] := by
    simp only [ingest_graph, List.foldl, applyModuleQuery]
    exact hmods
  refine ⟨⟨n.label, n.version, now⟩, ?_, rfl, hv⟩
  rw [hmods2]
  exact List.mem_append_right _ (List.mem_singleton.mpr rfl)

/-- Witness for the hypotheses of `claim10_version_none_not_unknown` at a
concrete node omitting `version`, ingested into the empty store. -/
theorem claim10_witness :
    ∃ mr ∈ ((ingest_graph "inst1" [normModule ⟨7, "crm", none, none, none, none, none⟩] []
        emptyState 0).1).moduleNodes,
      mr.name = "crm" ∧ mr.version = none :=
  (claim10_version_none_not_unknown ⟨7, "crm", none, none, none, none, none⟩
    "inst1" emptyState 0).2.2 rfl (by simp [emptyState])

/-! ### C1: the dependency upsert is an append-if-absent set union -/

/-- C1: on an existing DEPENDS_ON edge the upsert leaves `instances`
unchanged when the ingesting instance is already a member, appends it at
the end otherwise, and ingesting the same dependency first from `X` and
then from `Y` yields an edge whose provenance is exactly the set
`{X, Y}`. -/
theorem claim1_provenance_union
    (l₁ l₂ : List DepEdge) (e : DepEdge) (f t inst : String) (now : Nat)
    (st : GraphState) (A B X Y : String) (n₁ n₂ : Nat) :
    ((∀ e' ∈ l₁, ¬(e'.src = f ∧ e'.dst = t)) → e.src = f → e.dst = t →
      inst ∈ e.instances →
      upsertDep f t inst now (l₁ ++ e :: l₂) = l₁ ++ e :: l₂)
    ∧ ((∀ e' ∈ l₁, ¬(e'.src = f ∧ e'.dst = t)) → e.src = f → e.dst = t →
      inst ∉ e.instances →
      upsertDep f t inst now (l₁ ++ e :: l₂)
        = l₁ ++ { e with instances := e.instances ++ [inst] } :: l₂)
    ∧ ((∀ e' ∈ st.dependsOn, ¬(e'.src = A ∧ e'.dst = B)) →
      ∃ ed ∈ ((ingest_graph Y []
          [⟨A, B, some (some "unknown"), some (some "unknown"), "dependency"⟩]
          ((ingest_graph X []
            [⟨A, B, some (some "unknown"), some (some "unknown"), "dependency"⟩]
            st n₁).1) n₂).1).dependsOn,
        ed.src = A ∧ ed.dst = B ∧ ∀ z, z ∈ ed.instances ↔ (z = X ∨ z = Y)) := by
  refine ⟨?_, ?_, ?_⟩
  · intro h hf ht hm
    rw [upsertDep_first_match f t inst now l₁ e l₂ h hf ht]
    unfold updInstances
    rw [if_pos hm]
  · intro h hf ht hm
    rw [upsertDep_first_match f t inst now l₁ e l₂ h hf ht]
    unfold updInstances
    rw [if_neg hm]
  · intro h
    have h1 : ((ingest_graph X []
        [⟨A, B, some (some "unknown"), some (some "unknown"), "dependency"⟩]
        st n₁).1).dependsOn = st.dependsOn ++ [⟨A, B, n₁, [X]⟩] := by
      simp only [ingest_graph, List.foldl]
      rw [applyEdgeQuery_dependsOn, mergeInstance_dependsOn]
      exact upsertDep_no_match A B X n₁ st.dependsOn h
    have h2 : ((ingest_graph Y []
        [⟨A, B, some (some "unknown"), some (some "unknown"), "dependency"⟩]
        ((ingest_graph X []
          [⟨A, B, some (some "unknown"), some (some "unknown"), "dependency"⟩]
          st n₁).1) n₂).1).dependsOn
        = st.dependsOn ++ [⟨A, B, n₁, updInstances Y [X]⟩] := by
      simp only [ingest_graph, List.foldl]
      rw [applyEdgeQuery_dependsOn, mergeInstance_dependsOn]
      simp only [ingest_graph, List.foldl] at h1
      rw [h1]
      exact upsertDep_first_match A B Y n₂ st.dependsOn ⟨A, B, n₁, [X]⟩ [] h rfl rfl
    refine ⟨⟨A, B, n₁, updInstances Y [X]⟩, ?_, rfl, rfl, ?_⟩
    · rw [h2]
      exact List.mem_append_right _ (List.mem_singleton.mpr rfl)
    · intro z
      unfold updInstances
      by_cases hxy : Y ∈ [X]
      · rw [if_pos hxy]
        simp only [List.mem_singleton] at hxy
        simp only [List.mem_singleton]
        constructor
        · intro hz
          exact Or.inl hz
        · intro hz
          rcases hz with hz | hz
          · exact hz
          · rw [hz, hxy]
      · rw [if_neg hxy]
        simp only [List.mem_append, List.mem_singleton]

/-- Witness for `claim1_provenance_union`: concrete no-op, concrete append,
and the concrete X-then-Y union scenario starting from the empty store. -/
theorem claim1_witness :
    (upsertDep "A" "B" "X" 5 [⟨"A", "B", 0, ["X"]⟩] = [⟨"A", "B", 0, ["X"]⟩])
    ∧ (upsertDep "A" "B" "Y" 5 [⟨"A", "B", 0, ["X"]⟩] = [⟨"A", "B", 0, ["X", "Y"]⟩])
    ∧ (∃ ed ∈ ((ingest_graph "Y" []
        [⟨"A", "B", some (some "unknown"), some (some "unknown"), "dependency"⟩]
        ((ingest_graph "X" []
          [⟨"A", "B", some (some "unknown"), some (some "unknown"), "dependency"⟩]
          emptyState 0).1) 1).1).dependsOn,
      ed.src = "A" ∧ ed.dst = "B" ∧ ∀ z, z ∈ ed.instances ↔ (z = "X" ∨ z = "Y")) :=
  ⟨(claim1_provenance_union [] [] ⟨"A", "B", 0, ["X"]⟩ "A" "B" "X" 5 emptyState
      "A" "B" "X" "Y" 0 1).1 (by simp) rfl rfl (by decide),
   (claim1_provenance_union [] [] ⟨"A", "B", 0, ["X"]⟩ "A" "B" "Y" 5 emptyState
      "A" "B" "X" "Y" 0 1).2.1 (by simp) rfl rfl (by decide),
   (claim1_provenance_union [] [] ⟨"A", "B", 0, ["X"]⟩ "A" "B" "Y" 5 emptyState
      "A" "B" "X" "Y" 0 1).2.2 (by simp [emptyState])⟩

/-! ### C2: DEPENDS_ON / DEPENDS_BY mirror invariant -/

/-- Mirror of a dependency relationship: endpoints swapped, `created` and
`instances` identical. -/
def mirrorE (e : DepEdge) : DepEdge :=
  ⟨e.dst, e.src, e.created, e.instances⟩

/-- The dependency statement updates both directions with the same logic,
so the DEPENDS_BY list is always the element-wise mirror of DEPENDS_ON. -/
def Mirrored (st : GraphState) : Prop :=
  st.dependsBy = st.dependsOn.map mirrorE

lemma upsertDep_map_mirror (f t inst : String) (now : Nat) :
    ∀ l : List DepEdge,
      upsertDep t f inst now (l.map mirrorE) = (upsertDep f t inst now l).map mirrorE
  | [] => rfl
  | e :: l => by
    by_cases h : e.src = f ∧ e.dst = t
    · simp only [List.map_cons, upsertDep]
      rw [if_pos (show (mirrorE e).src = t ∧ (mirrorE e).dst = f from ⟨congrArg id h.2, congrArg id h.1⟩)]
      rw [if_pos h]
      rfl
    · have h' : ¬((mirrorE e).src = t ∧ (mirrorE e).dst = f) := by
        intro hc
        exact h ⟨hc.2, hc.1⟩
      simp only [List.map_cons, upsertDep]
      rw [if_neg h', if_neg h]
      rw [List.map_cons]
      rw [upsertDep_map_mirror f t inst now l]

lemma foldl_preserves {α : Type} (P : GraphState → Prop) (step : GraphState → α → GraphState)
    (h : ∀ s x, P s → P (step s x)) :
    ∀ (l : List α) (st : GraphState), P st → P (l.foldl step st)
  | [], _, hst => hst
  | x :: l, st, hst => foldl_preserves P step h l (step st x) (h st x hst)

lemma mergeInstance_mirrored (n : String) (now : Nat) (st : GraphState)
    (h : Mirrored st) : Mirrored (mergeInstance n now st) := by
  unfold Mirrored
  rw [mergeInstance_dependsBy, mergeInstance_dependsOn]
  exact h

lemma applyModuleQuery_mirrored (i : String) (m : ModuleDict) (now : Nat)
    (st : GraphState) (h : Mirrored st) : Mirrored (applyModuleQuery i m now st) := by
  unfold Mirrored
  rw [applyModuleQuery_dependsBy, applyModuleQuery_dependsOn]
  exact h

lemma applyEdgeQuery_mirrored (i : String) (e : EdgeDict) (now : Nat)
    (st : GraphState) (h : Mirrored st) : Mirrored (applyEdgeQuery i e now st) := by
  unfold Mirrored
  rw [applyEdgeQuery_dependsBy, applyEdgeQuery_dependsOn, h]
  exact upsertDep_map_mirror e.from_name e.to_name i now st.dependsOn

lemma ingest_graph_mirrored (i : String) (ms : List ModuleDict) (es : List EdgeDict)
    (st : GraphState) (now : Nat) (h : Mirrored st) :
    Mirrored ((ingest_graph i ms es st now).1) := by
  simp only [ingest_graph]
  exact foldl_preserves Mirrored _ (fun s e => applyEdgeQuery_mirrored i e now s) es _
    (foldl_preserves Mirrored _ (fun s m => applyModuleQuery_mirrored i m now s) ms _
      (mergeInstance_mirrored i now st h))

/-- One normalized ingestion unit, for sequencing successive ingests. -/
structure IngestReq where
  instance_name : String
  modules : List ModuleDict
  edges : List EdgeDict
  now : Nat
deriving Repr, DecidableEq

/-- A sequence of successive `ingest_graph` calls. -/
def ingestMany (reqs : List IngestReq) (st : GraphState) : GraphState :=
  reqs.foldl (fun s r => (ingest_graph r.instance_name r.modules r.edges s r.now).1) st

lemma ingestMany_mirrored (reqs : List IngestReq) (st : GraphState)
    (h : Mirrored st) : Mirrored (ingestMany reqs st) := by
  unfold ingestMany
  exact foldl_preserves Mirrored
    (fun s r => (ingest_graph r.instance_name r.modules r.edges s r.now).1)
    (fun s r hs => ingest_graph_mirrored r.instance_name r.modules r.edges s r.now hs)
    reqs st h

/-- C2: starting from a mirrored store, after any sequence of ingest
operations every DEPENDS_ON edge from A to B has a DEPENDS_BY edge from B
to A with an identical `instances` provenance list — and the store is
still mirrored, so the two directions never diverge. -/
theorem claim2_mirror_symmetry (reqs : List IngestReq) (st : GraphState)
    (h : Mirrored st) :
    Mirrored (ingestMany reqs st)
    ∧ ∀ e ∈ (ingestMany reqs st).dependsOn,
        ∃ e' ∈ (ingestMany reqs st).dependsBy,
          e'.src = e.dst ∧ e'.dst = e.src ∧ e'.instances = e.instances := by
  have hm := ingestMany_mirrored reqs st h
  refine ⟨hm, fun e he => ⟨mirrorE e, ?_, rfl, rfl, rfl⟩⟩
  rw [hm]
  exact List.mem_map_of_mem mirrorE he

/-- Witness for `claim2_mirror_symmetry`: one concrete dependency ingested
into the empty store (which is trivially mirrored). -/
theorem claim2_witness :
    Mirrored (ingestMany [⟨"X", [],
      [⟨"A", "B", some (some "unknown"), some (some "unknown"), "dependency"⟩], 0⟩]
      emptyState)
    ∧ ∀ e ∈ (ingestMany [⟨"X", [],
        [⟨"A", "B", some (some "unknown"), some (some "unknown"), "dependency"⟩], 0⟩]
        emptyState).dependsOn,
        ∃ e' ∈ (ingestMany [⟨"X", [],
          [⟨"A", "B", some (some "unknown"), some (some "unknown"), "dependency"⟩], 0⟩]
          emptyState).dependsBy,
          e'.src = e.dst ∧ e'.dst = e.src ∧ e'.instances = e.instances :=
  claim2_mirror_symmetry _ emptyState rfl

/-! ### C3: provenance lists are monotonically non-decreasing -/

/-- Every dependency edge of `l` survives into `l'` with the same
endpoints and with its `instances` list extended only by appending at the
end. -/
def DepExtends (l l' : List DepEdge) : Prop :=
  ∀ e ∈ l, ∃ e' ∈ l',
    e'.src = e.src ∧ e'.dst = e.dst ∧ ∃ tl, e'.instances = e.instances ++ tl

lemma depExtends_refl (l : List DepEdge) : DepExtends l l :=
  fun e he => ⟨e, he, rfl, rfl, [], (List.append_nil _).symm⟩

lemma depExtends_trans {l₁ l₂ l₃ : List DepEdge}
    (h1 : DepExtends l₁ l₂) (h2 : DepExtends l₂ l₃) : DepExtends l₁ l₃ := by
  intro e he
  obtain ⟨e', he', hs', hd', tl', ht'⟩ := h1 e he
  obtain ⟨e'', he'', hs'', hd'', tl'', ht''⟩ := h2 e' he'
  exact ⟨e'', he'', hs''.trans hs', hd''.trans hd',
    tl' ++ tl'', by rw [ht'', ht', List.append_assoc]⟩

lemma updInstances_extends (inst : String) (l : List String) :
    ∃ tl, updInstances inst l = l ++ tl := by
  unfold updInstances
  by_cases h : inst ∈ l
  · exact ⟨[], by rw [if_pos h, List.append_nil]⟩
  · exact ⟨[inst], by rw [if_neg h]⟩

lemma upsertDep_depExtends (f t inst : String) (now : Nat) :
    ∀ l : List DepEdge, DepExtends l (upsertDep f t inst now l)
  | [] => fun e he => absurd he (List.not_mem_nil e)
  | e :: l => by
    intro x hx
    unfold upsertDep
    by_cases h : e.src = f ∧ e.dst = t
    · rw [if_pos h]
      rcases List.mem_cons.mp hx with hx | hx
      · subst hx
        obtain ⟨tl, htl⟩ := updInstances_extends inst x.instances
        exact ⟨{ x with instances := updInstances inst x.instances },
          List.mem_cons_self _ _, rfl, rfl, tl, htl⟩
      · exact ⟨x, List.mem_cons_of_mem _ hx, rfl, rfl, [], (List.append_nil _).symm⟩
    · rw [if_neg h]
      rcases List.mem_cons.mp hx with hx | hx
      · subst hx
        exact ⟨x, List.mem_cons_self _ _, rfl, rfl, [], (List.append_nil _).symm⟩
      · obtain ⟨e', he', p⟩ := upsertDep_depExtends f t inst now l x hx
        exact ⟨e', List.mem_cons_of_mem _ he', p⟩

lemma moduleFold_dependsOn (i : String) (now : Nat) :
    ∀ (ms : List ModuleDict) (st : GraphState),
      (ms.foldl (fun s m => applyModuleQuery i m now s) st).dependsOn = st.dependsOn
  | [], _ => rfl
  | m :: ms, st => by
    rw [List.foldl_cons, moduleFold_dependsOn i now ms, applyModuleQuery_dependsOn]

lemma edgeFold_depExtends (i : String) (now : Nat) :
    ∀ (es : List EdgeDict) (st : GraphState),
      DepExtends st.dependsOn ((es.foldl (fun s e => applyEdgeQuery i e now s) st).dependsOn)
  | [], st => depExtends_refl st.dependsOn
  | e :: es, st => by
    rw [List.foldl_cons]
    refine depExtends_trans ?_ (edgeFold_depExtends i now es (applyEdgeQuery i e now st))
    rw [applyEdgeQuery_dependsOn]
    exact upsertDep_depExtends e.from_name e.to_name i now st.dependsOn

lemma ingest_graph_depExtends (i : String) (ms : List ModuleDict) (es : List EdgeDict)
    (st : GraphState) (now : Nat) :
    DepExtends st.dependsOn (((ingest_graph i ms es st now).1).dependsOn) := by
  simp only [ingest_graph]
  have h1 := edgeFold_depExtends i now es
    (ms.foldl (fun s m => applyModuleQuery i m now s) (mergeInstance i now st))
  rw [moduleFold_dependsOn, mergeInstance_dependsOn] at h1
  exact h1

lemma ingestMany_depExtends (reqs : List IngestReq) :
    ∀ st : GraphState, DepExtends st.dependsOn ((ingestMany reqs st).dependsOn) := by
  induction reqs with
  | nil => exact fun st => depExtends_refl st.dependsOn
  | cons r reqs ih =>
    intro st
    exact depExtends_trans
      (ingest_graph_depExtends r.instance_name r.modules r.edges st r.now) (ih _)

/-- C3: across any sequence of successive ingest operations, every
dependency edge keeps its endpoints and its `instances` provenance list is
only ever extended by appending at the end — never shortened or
reordered. -/
theorem claim3_provenance_monotone (reqs : List IngestReq) (st : GraphState)
    (e : DepEdge) (he : e ∈ st.dependsOn) :
    ∃ e' ∈ (ingestMany reqs st).dependsOn,
      e'.src = e.src ∧ e'.dst = e.dst ∧ ∃ tl, e'.instances = e.instances ++ tl :=
  ingestMany_depExtends reqs st e he

/-- Witness for `claim3_provenance_monotone`: a store holding one edge with
provenance `["X"]`, re-ingested from instance `"Y"`. -/
theorem claim3_witness :
    ∃ e' ∈ (ingestMany [⟨"Y", [],
        [⟨"A", "B", some (some "unknown"), some (some "unknown"), "dependency"⟩], 3⟩]
        { emptyState with dependsOn := [⟨"A", "B", 0, ["X"]⟩],
                          dependsBy := [⟨"B", "A", 0, ["X"]⟩] }).dependsOn,
      e'.src = "A" ∧ e'.dst = "B" ∧ ∃ tl, e'.instances = ["X"] ++ tl :=
  claim3_provenance_monotone _ _ ⟨"A", "B", 0, ["X"]⟩ (by decide)

/-! ### C5: non-success or data-less responses are skipped, not failed -/

lemma ingest_endpoint_fst (now : Nat) (l : List InstanceSyncResponse) (st : GraphState) :
    (ingest_endpoint now l st).1 = l.foldl (processResponse now) ⟨⟨st, 0, 0, 0⟩, []⟩ := rfl

lemma ingest_endpoint_snd (now : Nat) (l : List InstanceSyncResponse) (st : GraphState) :
    (ingest_endpoint now l st).2 =
      { status := "success",
        processed_instances := ((ingest_endpoint now l st).1).core.processed,
        nodes_created := ((ingest_endpoint now l st).1).core.total_modules,
        edges_created := ((ingest_endpoint now l st).1).core.total_deps,
        message := "Successfully ingested data from "
          ++ toString ((ingest_endpoint now l st).1).core.processed
          ++ " instances following schema conventions" } := rfl

lemma processResponse_core (now : Nat) (acc : RouterAcc) (r : InstanceSyncResponse) :
    (processResponse now acc r).core = coreStep now acc.core r := rfl

lemma routerFold_core (now : Nat) :
    ∀ (l : List InstanceSyncResponse) (a : RouterAcc),
      (l.foldl (processResponse now) a).core = l.foldl (coreStep now) a.core
  | [], _ => rfl
  | r :: l, a => by
    rw [List.foldl_cons, List.foldl_cons, routerFold_core now l, processResponse_core]

lemma routerFold_warnings (now : Nat) :
    ∀ (l : List InstanceSyncResponse) (a : RouterAcc),
      (l.foldl (processResponse now) a).warnings
        = a.warnings ++ (l.map responseWarnings).flatten
  | [], a => by simp
  | r :: l, a => by
    rw [List.foldl_cons, routerFold_warnings now l]
    show (a.warnings ++ responseWarnings r) ++ (l.map responseWarnings).flatten
      = a.warnings ++ ((r :: l).map responseWarnings).flatten
    rw [List.map_cons, List.flatten_cons, List.append_assoc]

lemma coreStep_skip (now : Nat) (c : CoreAcc) (r : InstanceSyncResponse)
    (h : r.status ≠ "success" ∨ r.data = none) : coreStep now c r = c := by
  rcases hd : r.data with _ | d
  · simp [coreStep, hd]
  · have hs : r.status ≠ "success" := by
      rcases h with h | h
      · exact h
      · rw [hd] at h
        exact absurd h (Option.some_ne_none d)
    simp [coreStep, hd, hs]

lemma responseWarnings_skip (r : InstanceSyncResponse)
    (h : r.status ≠ "success" ∨ r.data = none) :
    responseWarnings r = [Warning.skipInstance r.instance_ r.error] := by
  rcases hd : r.data with _ | d
  · simp [responseWarnings, hd]
  · have hs : r.status ≠ "success" := by
      rcases h with h | h
      · exact h
      · rw [hd] at h
        exact absurd h (Option.some_ne_none d)
    simp [responseWarnings, hd, hs]

/-- C5: a response whose status is not "success" or whose data payload is
absent contributes nothing to the store and to the totals, is not counted
in `processed_instances`, the endpoint's response is as if the entry were
not in the batch at all (no failure), and the skip is logged as a
warning. -/
theorem claim5_skip_non_success (now : Nat) (rs₁ : List InstanceSyncResponse)
    (r : InstanceSyncResponse) (rs₂ : List InstanceSyncResponse) (st : GraphState)
    (h : r.status ≠ "success" ∨ r.data = none) :
    ((ingest_endpoint now (rs₁ ++ r :: rs₂) st).1).core
      = ((ingest_endpoint now (rs₁ ++ rs₂) st).1).core
    ∧ (ingest_endpoint now (rs₁ ++ r :: rs₂) st).2
      = (ingest_endpoint now (rs₁ ++ rs₂) st).2
    ∧ Warning.skipInstance r.instance_ r.error
        ∈ ((ingest_endpoint now (rs₁ ++ r :: rs₂) st).1).warnings := by
  have hcore : ((ingest_endpoint now (rs₁ ++ r :: rs₂) st).1).core
      = ((ingest_endpoint now (rs₁ ++ rs₂) st).1).core := by
    rw [ingest_endpoint_fst, ingest_endpoint_fst, routerFold_core, routerFold_core,
      List.foldl_append, List.foldl_append, List.foldl_cons,
      coreStep_skip now _ r h]
  refine ⟨hcore, ?_, ?_⟩
  · rw [ingest_endpoint_snd, ingest_endpoint_snd, hcore]
  · rw [ingest_endpoint_fst, routerFold_warnings]
    refine List.mem_append_right _ (List.mem_flatten.mpr ⟨responseWarnings r, ?_, ?_⟩)
    · exact List.mem_map_of_mem responseWarnings
        (List.mem_append_right rs₁ (List.mem_cons_self r rs₂))
    · rw [responseWarnings_skip r h]
      exact List.mem_singleton.mpr rfl

/-- Witness for `claim5_skip_non_success`: a batch holding one failed
response between two successful empty ones. -/
theorem claim5_witness :
    ((ingest_endpoint 0 ([⟨"a", "success", some ⟨[], []⟩, none⟩]
        ++ ⟨"b", "failure", none, some "boom"⟩ :: [⟨"c", "success", some ⟨[], []⟩, none⟩])
        emptyState).1).core
      = ((ingest_endpoint 0 ([⟨"a", "success", some ⟨[], []⟩, none⟩]
          ++ [⟨"c", "success", some ⟨[], []⟩, none⟩]) emptyState).1).core
    ∧ (ingest_endpoint 0 ([⟨"a", "success", some ⟨[], []⟩, none⟩]
        ++ ⟨"b", "failure", none, some "boom"⟩ :: [⟨"c", "success", some ⟨[], []⟩, none⟩])
        emptyState).2
      = (ingest_endpoint 0 ([⟨"a", "success", some ⟨[], []⟩, none⟩]
          ++ [⟨"c", "success", some ⟨[], []⟩, none⟩]) emptyState).2
    ∧ Warning.skipInstance "b" (some "boom")
        ∈ ((ingest_endpoint 0 ([⟨"a", "success", some ⟨[], []⟩, none⟩]
            ++ ⟨"b", "failure", none, some "boom"⟩ :: [⟨"c", "success", some ⟨[], []⟩, none⟩])
            emptyState).1).warnings :=
  claim5_skip_non_success 0 [⟨"a", "success", some ⟨[], []⟩, none⟩]
    ⟨"b", "failure", none, some "boom"⟩ [⟨"c", "success", some ⟨[], []⟩, none⟩]
    emptyState (Or.inl (by decide))

/-! ### C6: edges with unresolved endpoints are dropped with a warning -/

lemma normEdges_characterization (lookup : String → Option String) :
    ∀ edges : List ModuleEdge,
      normEdges lookup edges
        = (edges.filterMap (resolveEdge lookup),
           (edges.filter (fun e => (resolveEdge lookup e).isNone)).map
             (fun e => Warning.skipEdge e.from_ e.to_))
  | [] => rfl
  | e :: edges => by
    rcases hr : resolveEdge lookup e with _ | d
    · simp [normEdges, hr, List.filterMap_cons, List.filter_cons,
        normEdges_characterization lookup edges]
    · simp [normEdges, hr, List.filterMap_cons, List.filter_cons,
        normEdges_characterization lookup edges]

lemma resolveEdge_unresolved (lookup : String → Option String) (e : ModuleEdge)
    (h : lookup (toString e.from_) = none ∨ lookup (toString e.to_) = none) :
    resolveEdge lookup e = none := by
  unfold resolveEdge
  rcases h with h | h
  · rw [h]
  · rw [h]
    rcases lookup (toString e.from_) with _ | f <;> rfl

/-- C6: every edge whose endpoints do not both resolve through the
id-to-name lookup is dropped from the normalized edge list and reported as
a `skipEdge` warning; normalization never fails — in particular the
payload `nodes = [{id: 1, label: "A"}]`, `edges = [{from: 1, to: 99}]`
yields zero normalized edges, a skip warning, and a successful endpoint
response with zero dependencies created. -/
theorem claim6_dangling_edge_dropped :
    (∀ (nodes : List ModuleNode) (edges : List ModuleEdge),
        normEdges (idToName nodes) edges
          = (edges.filterMap (resolveEdge (idToName nodes)),
             (edges.filter (fun e => (resolveEdge (idToName nodes) e).isNone)).map
               (fun e => Warning.skipEdge e.from_ e.to_)))
    ∧ (∀ (nodes : List ModuleNode) (edges : List ModuleEdge) (e : ModuleEdge),
        e ∈ edges →
        (idToName nodes (toString e.from_) = none
          ∨ idToName nodes (toString e.to_) = none) →
        resolveEdge (idToName nodes) e = none
        ∧ Warning.skipEdge e.from_ e.to_ ∈ (normEdges (idToName nodes) edges).2)
    ∧ ((normEdges (idToName [⟨1, "A", none, none, none, none, none⟩])
          [⟨1, 99, some "dependency"⟩]).1 = []
       ∧ (ingest_endpoint 0
            [⟨"inst1", "success",
              some ⟨[⟨1, "A", none, none, none, none, none⟩], [⟨1, 99, some "dependency"⟩]⟩,
              none⟩] emptyState).2.status = "success"
       ∧ (ingest_endpoint 0
            [⟨"inst1", "success",
              some ⟨[⟨1, "A", none, none, none, none, none⟩], [⟨1, 99, some "dependency"⟩]⟩,
              none⟩] emptyState).2.edges_created = 0
       ∧ Warning.skipEdge 1 99
           ∈ ((ingest_endpoint 0
              [⟨"inst1", "success",
                some ⟨[⟨1, "A", none, none, none, none, none⟩], [⟨1, 99, some "dependency"⟩]⟩,
                none⟩] emptyState).1).warnings) := by
  refine ⟨fun nodes edges => normEdges_characterization (idToName nodes) edges, ?_, ?_⟩
  · intro nodes edges e he hu
    have hr := resolveEdge_unresolved (idToName nodes) e hu
    refine ⟨hr, ?_⟩
    rw [normEdges_characterization]
    refine List.mem_map_of_mem _ (List.mem_filter.mpr ⟨he, ?_⟩)
    rw [hr]
    rfl
  · refine ⟨by decide, rfl, rfl, by decide⟩

/-- Witness for the implications of `claim6_dangling_edge_dropped`: a
concrete edge referencing ids absent from an empty node list. -/
theorem claim6_witness :
    resolveEdge (idToName []) ⟨5, 6, none⟩ = none
    ∧ Warning.skipEdge 5 6 ∈ (normEdges (idToName []) [⟨5, 6, none⟩]).2 :=
  claim6_dangling_edge_dropped.2.1 [] [⟨5, 6, none⟩] ⟨5, 6, none⟩
    (List.mem_singleton.mpr rfl) (Or.inl rfl)

/-! ### C9: a failing per-module or per-edge write aborts the whole call

`ingest_graph` runs one store statement per module and per edge inside a
`try` block; the first statement that raises ends the loop and the
exception is re-raised as `HTTPException(500, "Database error: " + msg)`.
We model the store as an oracle `exec : WriteOp → Option String` returning
the raised error message, if any; a failing statement applies no state
change, and the returned trace lists the statements that were attempted. -/

/-- One store statement issued by `ingest_graph`. -/
inductive WriteOp where
  | instOp (inst : String)
  | modOp (inst : String) (m : ModuleDict)
  | depOp (inst : String) (e : EdgeDict)
deriving Repr, DecidableEq

/-- State effect of a successful statement. -/
def applyOp (now : Nat) (st : GraphState) : WriteOp → GraphState
  | .instOp i => mergeInstance i now st
  | .modOp i m => applyModuleQuery i m now st
  | .depOp i e => applyEdgeQuery i e now st

/-- The statement sequence of one `ingest_graph` call: the Instance merge,
then one statement per module, then one per edge. -/
def ingestOps (inst : String) (modules : List ModuleDict) (edges : List EdgeDict) :
    List WriteOp :=
  WriteOp.instOp inst :: (modules.map (WriteOp.modOp inst)
    ++ edges.map (WriteOp.depOp inst))

/-- Run statements in order until the first failure: returns the attempted
trace, the resulting state, and the error message of the failing
statement, if any. -/
def runOps (exec : WriteOp → Option String) (now : Nat) :
    List WriteOp → GraphState → List WriteOp × GraphState × Option String
  | [], st => ([], st, none)
  | op :: rest, st =>
    match exec op with
    | some msg => ([op], st, some msg)
    | none =>
      let r := runOps exec now rest (applyOp now st op)
      (op :: r.1, r.2.1, r.2.2)

/-- `Neo4jDatabase.ingest_graph` including its failure behaviour: raise
when the client is not connected; otherwise run the statements, and
convert the first store error into `HTTPException(500, "Database error:
..." )`, aborting the call. -/
def ingest_graphE (exec : WriteOp → Option String) (connected : Bool)
    (instance_name : String) (modules : List ModuleDict) (edges : List EdgeDict)
    (st : GraphState) (now : Nat) :
    List WriteOp × Except (Nat × String) (GraphState × IngestCounts) :=
  if !connected then ([], Except.error (500, "Database not connected"))
  else
    let r := runOps exec now (ingestOps instance_name modules edges) st
    match r.2.2 with
    | some msg => (r.1, Except.error (500, "Database error: " ++ msg))
    | none => (r.1, Except.ok (r.2.1,
        ⟨1, modules.length, edges.length, modules.length⟩))

lemma runOps_fail (exec : WriteOp → Option String) (now : Nat) (msg : String) :
    ∀ (l₁ : List WriteOp) (f : WriteOp) (l₂ : List WriteOp) (st : GraphState),
      (∀ o ∈ l₁, exec o = none) → exec f = some msg →
      runOps exec now (l₁ ++ f :: l₂) st
        = (l₁ ++ [f], l₁.foldl (applyOp now) st, some msg)
  | [], f, l₂, st, _, hf => by
    simp only [List.nil_append, runOps, hf, List.foldl_nil]
  | o :: l₁, f, l₂, st, h, hf => by
    have ho : exec o = none := h o (List.mem_cons_self o l₁)
    simp only [List.cons_append, runOps, ho, List.append_eq]
    rw [runOps_fail exec now msg l₁ f l₂ (applyOp now st o)
      (fun x hx => h x (List.mem_cons_of_mem o hx)) hf]
    rfl

/-- C9: if the statements before some per-module or per-edge statement all
succeed and that statement raises with message `msg`, the whole ingest
call aborts at that point: it returns `HTTPException(500, "Database
error: " + msg)`, the attempted trace stops right after the failing
statement (the remaining modules and edges are not attempted, nothing is
retried), and no partial-success value is returned. -/
theorem claim9_abort_on_write_error (exec : WriteOp → Option String)
    (instance_name : String) (modules : List ModuleDict) (edges : List EdgeDict)
    (st : GraphState) (now : Nat) (l₁ : List WriteOp) (f : WriteOp)
    (l₂ : List WriteOp) (msg : String)
    (hsplit : ingestOps instance_name modules edges = l₁ ++ f :: l₂)
    (h1 : ∀ o ∈ l₁, exec o = none) (hf : exec f = some msg) :
    ingest_graphE exec true instance_name modules edges st now
      = (l₁ ++ [f], Except.error (500, "Database error: " ++ msg)) := by
  unfold ingest_graphE
  rw [if_neg (by simp), hsplit, runOps_fail exec now msg l₁ f l₂ st h1 hf]

/-- Witness for `claim9_abort_on_write_error`: the store fails the second
module statement of a two-module, one-edge ingest; the trace shows the
edge statement and the second module statement were never attempted. -/
theorem claim9_witness :
    ingest_graphE
      (fun o => if o = WriteOp.modOp "X" ⟨"m2", some none, "2"⟩ then some "boom" else none)
      true "X" [⟨"m1", some none, "1"⟩, ⟨"m2", some none, "2"⟩]
      [⟨"A", "B", some (some "unknown"), some (some "unknown"), "dependency"⟩]
      emptyState 0
      = ([WriteOp.instOp "X", WriteOp.modOp "X" ⟨"m1", some none, "1"⟩,
          WriteOp.modOp "X" ⟨"m2", some none, "2"⟩],
         Except.error (500, "Database error: " ++ "boom")) :=
  claim9_abort_on_write_error
    (fun o => if o = WriteOp.modOp "X" ⟨"m2", some none, "2"⟩ then some "boom" else none)
    "X" [⟨"m1", some none, "1"⟩, ⟨"m2", some none, "2"⟩]
    [⟨"A", "B", some (some "unknown"), some (some "unknown"), "dependency"⟩]
    emptyState 0
    [WriteOp.instOp "X", WriteOp.modOp "X" ⟨"m1", some none, "1"⟩]
    (WriteOp.modOp "X" ⟨"m2", some none, "2"⟩)
    [WriteOp.depOp "X" ⟨"A", "B", some (some "unknown"), some (some "unknown"), "dependency"⟩]
    "boom" rfl (by decide) (by decide)

/-! ### Cycle analysis (`Neo4jDatabase.analyze_cycles`)

`analyze_cycles` first raises `HTTPException(500, "Database not
connected")` when the client is not connected.  Inside its `try` block it
probes APOC with `RETURN apoc.version()` (a probe failure yields the
degraded shape with error "APOC procedures not available"), then runs two
cycle queries; any exception there is caught and converted into the
degraded shape with error "Cycle analysis failed: ...".  The results of
the first query are discarded (both accumulators are re-assigned), so only
the second query's rows matter.

`apoc.nodes.cycles` is an external store procedure, not code of this
repository; its yield is modelled by the `rawCycles` parameter — the list
of module-name sequences (one per detected cycle, without the closing
repetition) that the procedure returns for the current graph.  Errors
raised by the store are modelled by the `apocErr` / `queryErr`
parameters. -/

/-- The Cypher fragment `MATCH (i:Instance)-[:DEPLOYS]->(m:Module) WHERE
m.name IN moduleNames RETURN ... collect(DISTINCT i.name)`: the distinct
names of instances deploying any module of `names`. -/
def deployersOf (g : GraphState) (names : List String) : List String :=
  ((g.deploys.filter (fun p => names.contains p.2)).map (fun p => p.1)).dedup

/-- Rows of the simple cycle query: one row per yielded path with a
non-empty module-name list (`WHERE size(moduleNames) > 0`); the inner
non-optional `MATCH` eliminates rows whose module set is deployed by no
instance. -/
def cycleRows (g : GraphState) (rawCycles : List (List String)) :
    List (List String × List String) :=
  rawCycles.filterMap (fun raw =>
    if raw.isEmpty then none
    else if (deployersOf g raw).isEmpty then none
    else some (raw, deployersOf g raw))

/-- Python `sorted(list(all_responsible_instances))` over a set union:
deduplicate, then sort lexicographically. -/
def sortedDedup (l : List String) : List String :=
  l.dedup.insertionSort (fun a b => a ≤ b)

/-- Shape of the cycle-analysis result. -/
structure CycleReport where
  cycles_detected : Bool
  cycles : List (List String)
  responsible_instances : List String
  error : Option String
deriving Repr, DecidableEq

/-- The result-processing loop of `analyze_cycles`: each row's module
names get their first element appended again at the end
(`module_names + [module_names[0]]`), and the deploying instances are
accumulated into one set, sorted at the end. -/
def analyzeCyclesCore (g : GraphState) (rawCycles : List (List String)) : CycleReport :=
  let rows := cycleRows g rawCycles
  let cycles := rows.map (fun r => r.1 ++ [r.1.headI])
  { cycles_detected := !cycles.isEmpty,
    cycles := cycles,
    responsible_instances := sortedDedup (rows.map (fun r => r.2)).flatten,
    error := none }

/-- `Neo4jDatabase.analyze_cycles` with its failure structure: raise when
not connected; degraded-success shape when the APOC probe fails or when
either cycle query raises; otherwise the processed report. -/
def analyze_cycles (connected : Bool) (apocErr : Option String)
    (queryErr : Option String) (g : GraphState) (rawCycles : List (List String)) :
    Except (Nat × String) CycleReport :=
  if !connected then Except.error (500, "Database not connected")
  else
    match apocErr with
    | some _ =>
      Except.ok { cycles_detected := false, cycles := [],
                  responsible_instances := [],
                  error := some "APOC procedures not available" }
    | none =>
      match queryErr with
      | some msg =>
        Except.ok { cycles_detected := false, cycles := [],
                    responsible_instances := [],
                    error := some ("Cycle analysis failed: " ++ msg) }
      | none => Except.ok (analyzeCyclesCore g rawCycles)

/-! ### C4: degraded success and the not-connected exception -/

/-- The claim that `analyze_cycles` never raises "including when the
database client is not connected" fails: with a disconnected client the
method raises `HTTPException(500, "Database not connected")` before
reaching its `try` block. -/
theorem claim4_counterexample :
    analyze_cycles false none none emptyState []
      = Except.error (500, "Database not connected") := rfl

/-- C4 (amended): when the client is connected, a failing APOC probe or
any store error during analysis is converted into the degraded-success
shape — `cycles_detected = false`, empty cycles and responsible
instances, and a non-empty error string — and no exception reaches the
caller; when the client is not connected, the call raises
`HTTPException(500)` instead. -/
theorem claim4_degraded_success (apocErr queryErr : Option String)
    (g : GraphState) (rawCycles : List (List String))
    (h : apocErr ≠ none ∨ queryErr ≠ none) :
    ∃ msg, analyze_cycles true apocErr queryErr g rawCycles
        = Except.ok { cycles_detected := false, cycles := [],
                      responsible_instances := [], error := some msg }
      ∧ msg ≠ "" := by
  unfold analyze_cycles
  rw [if_neg (by simp)]
  rcases apocErr with _ | a
  · rcases queryErr with _ | q
    · rcases h with h | h <;> exact absurd rfl h
    · refine ⟨"Cycle analysis failed: " ++ q, rfl, fun hEq => ?_⟩
      have h2 := congrArg String.length hEq
      rw [String.length_append] at h2
      have h3 : "Cycle analysis failed: ".length = 23 := rfl
      have h4 : "".length = 0 := rfl
      rw [h3, h4] at h2
      omega
  · exact ⟨"APOC procedures not available", rfl, by decide⟩

/-- Witness for `claim4_degraded_success`: an unavailable APOC probe on
the empty store. -/
theorem claim4_witness :
    ∃ msg, analyze_cycles true (some "no apoc") none emptyState []
        = Except.ok { cycles_detected := false, cycles := [],
                      responsible_instances := [], error := some msg }
      ∧ msg ≠ "" :=
  claim4_degraded_success (some "no apoc") none emptyState []
    (Or.inl (by simp))

/-! ### C7: reported cycle shape and responsible instances -/

lemma mem_deployersOf (g : GraphState) (names : List String) (i : String) :
    i ∈ deployersOf g names ↔ ∃ m ∈ names, (i, m) ∈ g.deploys := by
  unfold deployersOf
  rw [List.mem_dedup]
  constructor
  · intro h
    obtain ⟨p, hp, hpi⟩ := List.mem_map.mp h
    have hf := List.mem_filter.mp hp
    have hc : p.2 ∈ names := by
      have := hf.2
      simp at this
      exact this
    refine ⟨p.2, hc, ?_⟩
    rw [← hpi, Prod.mk.eta]
    exact hf.1
  · rintro ⟨m, hm, hd⟩
    refine List.mem_map.mpr ⟨(i, m), List.mem_filter.mpr ⟨hd, ?_⟩, rfl⟩
    simp
    exact hm

lemma mem_cycleRows (g : GraphState) (rc : List (List String))
    (row : List String × List String) :
    row ∈ cycleRows g rc
      ↔ row.1 ∈ rc ∧ row.1 ≠ [] ∧ row.2 = deployersOf g row.1
          ∧ deployersOf g row.1 ≠ [] := by
  unfold cycleRows
  rw [List.mem_filterMap]
  constructor
  · rintro ⟨raw, hraw, hf⟩
    by_cases h1 : raw.isEmpty
    · rw [if_pos h1] at hf
      exact absurd hf (by simp)
    · rw [if_neg h1] at hf
      by_cases h2 : (deployersOf g raw).isEmpty
      · rw [if_pos h2] at hf
        exact absurd hf (by simp)
      · rw [if_neg h2] at hf
        have hrow := Option.some_injective _ hf
        rw [← hrow]
        refine ⟨hraw, ?_, rfl, ?_⟩
        · simpa [List.isEmpty_iff] using h1
        · simpa [List.isEmpty_iff] using h2
  · rintro ⟨h1, h2, h3, h4⟩
    refine ⟨row.1, h1, ?_⟩
    rw [if_neg (by simpa [List.isEmpty_iff] using h2),
      if_neg (by simpa [List.isEmpty_iff] using h4)]
    rw [← h3, Prod.mk.eta]

/-- C7: on the success path of cycle analysis, every reported cycle is a
module-name sequence yielded by the store's cycle procedure with its first
element appended again at the end (closed form); the responsible
instances are sorted, duplicate-free, and are exactly the instances
deploying some module of some yielded cycle; and every yielded non-empty
cycle whose modules are deployed by at least one instance is reported in
closed form. -/
theorem claim7_cycle_report (g : GraphState) (rc : List (List String))
    (rep : CycleReport)
    (hrep : analyze_cycles true none none g rc = Except.ok rep) :
    (∀ c ∈ rep.cycles, ∃ r, r ∈ rc ∧ ∃ a tl, r = a :: tl ∧ c = r ++ [a])
    ∧ List.Sorted (fun a b => a ≤ b) rep.responsible_instances
    ∧ rep.responsible_instances.Nodup
    ∧ (∀ i, i ∈ rep.responsible_instances
        ↔ ∃ r ∈ rc, r ≠ [] ∧ ∃ m ∈ r, (i, m) ∈ g.deploys)
    ∧ (∀ (r : List String) (a : String) (tl : List String),
        r = a :: tl → r ∈ rc → deployersOf g r ≠ [] → (r ++ [a]) ∈ rep.cycles) := by
  have hrep' : rep = analyzeCyclesCore g rc := by
    have : analyze_cycles true none none g rc = Except.ok (analyzeCyclesCore g rc) := rfl
    rw [this] at hrep
    exact (Except.ok.injEq _ _ ▸ hrep).symm
  subst hrep'
  refine ⟨?_, ?_, ?_, ?_, ?_⟩
  · intro c hc
    obtain ⟨row, hrow, hceq⟩ := List.mem_map.mp hc
    obtain ⟨h1, h2, _h3, _h4⟩ := (mem_cycleRows g rc row).mp hrow
    obtain ⟨a, tl, hcons⟩ := List.exists_cons_of_ne_nil h2
    refine ⟨row.1, h1, a, tl, hcons, ?_⟩
    rw [← hceq, hcons]
    rfl
  · exact List.sorted_insertionSort _ _
  · exact ((List.perm_insertionSort _ _).nodup_iff).mpr (List.nodup_dedup _)
  · intro i
    show i ∈ sortedDedup ((cycleRows g rc).map (fun r => r.2)).flatten ↔ _
    unfold sortedDedup
    rw [List.mem_insertionSort, List.mem_dedup, List.mem_flatten]
    constructor
    · rintro ⟨s, hs, hi⟩
      obtain ⟨row, hrow, hseq⟩ := List.mem_map.mp hs
      obtain ⟨h1, h2, h3, _h4⟩ := (mem_cycleRows g rc row).mp hrow
      rw [← hseq, h3] at hi
      obtain ⟨m, hm, hd⟩ := (mem_deployersOf g row.1 i).mp hi
      exact ⟨row.1, h1, h2, m, hm, hd⟩
    · rintro ⟨r, hr, hrne, m, hm, hd⟩
      have hi : i ∈ deployersOf g r := (mem_deployersOf g r i).mpr ⟨m, hm, hd⟩
      have hdne : deployersOf g r ≠ [] := List.ne_nil_of_mem hi
      have hrow : (r, deployersOf g r) ∈ cycleRows g rc :=
        (mem_cycleRows g rc (r, deployersOf g r)).mpr ⟨hr, hrne, rfl, hdne⟩
      exact ⟨deployersOf g r, List.mem_map_of_mem (fun x => x.2) hrow, hi⟩
  · intro r a tl hcons hr hdne
    have hrow : (r, deployersOf g r) ∈ cycleRows g rc :=
      (mem_cycleRows g rc (r, deployersOf g r)).mpr
        ⟨hr, by rw [hcons]; exact List.cons_ne_nil a tl, rfl, hdne⟩
    show r ++ [a] ∈ (cycleRows g rc).map (fun row => row.1 ++ [row.1.headI])
    refine List.mem_map.mpr ⟨(r, deployersOf g r), hrow, ?_⟩
    rw [hcons]
    rfl

/-- Witness for `claim7_cycle_report`: the cycle `A → B → C → A` on a
store where instance `X` deploys `A` and instance `Y` deploys `B`. -/
theorem claim7_witness :
    (["A", "B", "C"] ++ ["A"])
      ∈ (analyzeCyclesCore
          { emptyState with
              deploys := [("X", "A"), ("Y", "B")],
              dependsOn := [⟨"A", "B", 0, ["X"]⟩, ⟨"B", "C", 0, ["X"]⟩,
                ⟨"C", "A", 0, ["X"]⟩] }
          [["A", "B", "C"]]).cycles
    ∧ "X" ∈ (analyzeCyclesCore
          { emptyState with
              deploys := [("X", "A"), ("Y", "B")],
              dependsOn := [⟨"A", "B", 0, ["X"]⟩, ⟨"B", "C", 0, ["X"]⟩,
                ⟨"C", "A", 0, ["X"]⟩] }
          [["A", "B", "C"]]).responsible_instances := by
  have h := claim7_cycle_report
    { emptyState with
        deploys := [("X", "A"), ("Y", "B")],
        dependsOn := [⟨"A", "B", 0, ["X"]⟩, ⟨"B", "C", 0, ["X"]⟩,
          ⟨"C", "A", 0, ["X"]⟩] }
    [["A", "B", "C"]] _ rfl
  refine ⟨h.2.2.2.2 ["A", "B", "C"] "A" ["B", "C"] rfl (by decide) (by decide), ?_⟩
  exact (h.2.2.2.1 "X").mpr ⟨["A", "B", "C"], by decide, by decide, "A", by decide, by decide⟩
